import Mathlib

/-!
Shallow embedding of the YouTube download tool (src/main.py) sufficient to
settle the claims about the download orchestration and post-processing
pipeline: the option builder (`_get_ydl_opts`), the subtitle embedder
(`_embed_subtitles`), the per-URL download routine (`download_video`) and the
batch run loop (`run`).

External collaborators (the yt-dlp extraction engine, the ffmpeg binary and
the real filesystem) are modelled as oracles: the filesystem is the set of
existing file paths, the behaviour of the engine for one URL is a `UrlWorld`
record, and the outcome of the ffmpeg remux subprocess is a `RemuxOutcome`.
-/

namespace YTDL

/-- Constants from src/main.py lines 35-40. -/
def SUPPORTED_SUBTITLE_FORMATS : List String := [".vtt", ".srt", ".ass"]

/-- Exit code 0 (src/main.py line 36). -/
def EXIT_SUCCESS : Nat := 0

/-- Exit code 1 (src/main.py line 37). -/
def EXIT_GENERAL_ERROR : Nat := 1

/-- Exit code 2 (src/main.py line 38), used by `list_formats` on a
yt-dlp `DownloadError`. -/
def EXIT_NETWORK_ERROR : Nat := 2

/-- A filesystem path, split into the part before the (last) extension and
the extension itself, mirroring `pathlib.Path`: `stem ++ ext` is the full
path string, `withSuffix` replaces the extension (Python `with_suffix`), and
dropping the suffix (`with_suffix` applied to the empty string) yields the
`stem` field.  Downloaded files come from the output template
`<output_dir>/<title>.<ext>`, so every path handled by the tool has this
shape. -/
structure FPath where
  stem : String
  ext : String
deriving DecidableEq, Repr

/-- Full path string of an `FPath`. -/
def FPath.full (p : FPath) : String := p.stem ++ p.ext

/-- Python `Path.with_suffix(s)`: replace the extension. -/
def FPath.withSuffix (p : FPath) (s : String) : FPath :=
  { stem := p.stem, ext := s }

/-- The filesystem, modelled as the list of paths of existing files.
Membership (`List.contains`) is `Path.exists()`. -/
abbrev FS := List String

/-- Python `Path.unlink()`: remove a path from the filesystem. -/
def FS.delete (fs : FS) (p : String) : FS := fs.filter (fun q => q != p)

/-- A file coming into existence at path `p` (a rename target, or a file
written by the ffmpeg subprocess). -/
def FS.create (fs : FS) (p : String) : FS :=
  if fs.contains p then fs else p :: fs

/-- The command-line arguments after argparse (src/main.py lines 442-574).
`format` and `max_filesize` default to `None` in argparse, hence `Option`;
`max_filesize` is parsed with `type=float`, modelled as a rational (the only
arithmetic performed on it, multiplication by 1024 twice, is exact scaling by
a power of two, on which binary floats and rationals agree). -/
structure Args where
  urls : List String
  output_dir : String
  format : Option String
  audio_only : Bool
  video_only : Bool
  subtitles : Bool
  sub_lang : String
  embed_subs : Bool
  merge : Bool
  overwrite : Bool
  quiet : Bool
  progress : Bool
  max_filesize : Option ℚ
  simulate : Bool
deriving Repr

/-- One entry of the `postprocessors` list built at src/main.py
lines 142-146. -/
structure Postprocessor where
  key : String
  preferredcodec : String
  preferredquality : String
deriving DecidableEq, Repr

/-- The yt-dlp options dictionary built by `_get_ydl_opts`
(src/main.py lines 117-173).  Keys that are only conditionally inserted in
the Python dict are modelled as `Option` (absent = `none`) or, for
`postprocessors` and the subtitle booleans, by their yt-dlp default
(`[]` / `false`).  `paths_temp` and `paths_home` model the two components of
the paths entry added at lines 170-171. -/
structure YdlOpts where
  outtmpl : String
  quiet : Bool
  no_warnings : Bool
  overwrites : Bool
  restrictfilenames : Bool
  windowsfilenames : Bool
  merge_output_format : Option String
  format : String
  postprocessors : List Postprocessor
  writesubtitles : Bool
  writeautomaticsub : Bool
  subtitlesformat : Option String
  subtitleslangs : Option (List String)
  max_filesize : Option ℚ
  paths_temp : Option String
  paths_home : Option String
deriving Repr

/-- Embedding of `YouTubeDownloader._get_ydl_opts` (src/main.py
lines 117-173).  Python truthiness is preserved: `self.args.format or d`
falls back to the default when `format` is `None` or the empty string, and
`if self.args.max_filesize:` skips the cap when it is `None` or `0.0`. -/
def getYdlOpts (args : Args) (ffmpegAvailable : Bool) (tempDir : Option String) :
    YdlOpts :=
  { outtmpl := args.output_dir ++ "/%(title)s.%(ext)s"
    quiet := args.quiet
    no_warnings := args.quiet
    overwrites := args.overwrite
    restrictfilenames := true
    windowsfilenames := true
    merge_output_format := if args.merge then some "mp4" else none
    format :=
      if args.audio_only then
        match args.format with
        | some f => if f = "" then "bestaudio/best" else f
        | none => "bestaudio/best"
      else if args.video_only then
        match args.format with
        | some f => if f = "" then "bestvideo" else f
        | none => "bestvideo"
      else
        match args.format with
        | some f => if f = "" then "bestvideo+bestaudio/best" else f
        | none => "bestvideo+bestaudio/best"
    postprocessors :=
      if args.audio_only then
        if ffmpegAvailable then
          [{ key := "FFmpegExtractAudio", preferredcodec := "mp3",
             preferredquality := "192" }]
        else []
      else []
    writesubtitles := args.subtitles
    writeautomaticsub := args.subtitles
    subtitlesformat := if args.subtitles then some "srt/vtt/best" else none
    subtitleslangs :=
      if args.subtitles then
        some (if args.sub_lang = "all" then ["all"] else [args.sub_lang])
      else none
    max_filesize :=
      match args.max_filesize with
      | some m => if m ≠ 0 then some (m * 1024 * 1024) else none
      | none => none
    paths_temp := tempDir
    paths_home := tempDir.map (fun _ => args.output_dir) }

/-- Sidecar caption file name probed by the embedder at src/main.py
line 311: `<base>.<lang><ext>` where `base` is the video path without its
suffix. -/
def subFileName (base lang ext : String) : String :=
  base ++ "." ++ lang ++ ext

/-- Union of the manual caption languages and the auto caption languages
(a Python set union of the two key sets, src/main.py line 309).  The union
is represented as a duplicate-free list; the claims settled here do not
depend on its iteration order. -/
def captionLangUnion (manual auto : List String) : List String :=
  (manual ++ auto).dedup

/-- Caption discovery loop of `_embed_subtitles` (src/main.py
lines 306-314): for each language of the union, try the extensions of
`SUPPORTED_SUBTITLE_FORMATS` in order and keep the first that exists
(the `break`); a language with no matching file contributes nothing. -/
def findSubtitleFiles (fs : FS) (base : String) (langs : List String) :
    List (String × String) :=
  langs.filterMap (fun lang =>
    (SUPPORTED_SUBTITLE_FORMATS.find?
        (fun ext => fs.contains (subFileName base lang ext))).map
      (fun ext => (lang, subFileName base lang ext)))

/-- Outcome of the ffmpeg remux subprocess run at src/main.py
lines 350-355 (`check=True`): either it returns with code 0, in which case
it has written the temporary output file, or it raises
`CalledProcessError`; in the failure case `tempWritten` records whether a
half-written temporary output file was left behind. -/
inductive RemuxOutcome where
  | success
  | failure (tempWritten : Bool)
deriving DecidableEq, Repr

/-- Console message emitted by `_embed_subtitles` on each exit path. -/
inductive EmbedMsg where
  | warnVideoMissing
  | infoNoSubs
  | okEmbedded
  | warnRemuxFailed
deriving DecidableEq, Repr

/-- Result of `_embed_subtitles`: the filesystem afterwards, the returned
path, and the message emitted. -/
structure EmbedResult where
  fs : FS
  path : FPath
  msg : EmbedMsg
deriving DecidableEq, Repr

/-- Embedding of `YouTubeDownloader._embed_subtitles` (src/main.py
lines 290-372).  `manual` and `auto` are the caption language key sets of
the yt-dlp info dict.  On remux success (lines 357-365) the temporary
output exists, the original is unlinked, the temporary output is renamed
onto the original path, and the consumed caption files are unlinked; on
`CalledProcessError` (lines 367-370) the temporary output is unlinked if it
exists and the function returns normally.  Every branch ends at the single
`return video_path` of line 372 (or the early returns of lines 303 and
318), so the exception never escapes the embedder. -/
def embedSubtitles (fs : FS) (videoPath : FPath) (manual auto : List String)
    (remux : RemuxOutcome) : EmbedResult :=
  if !(fs.contains videoPath.full) then
    { fs := fs, path := videoPath, msg := .warnVideoMissing }
  else
    let basePath := videoPath.stem
    let subtitleFiles := findSubtitleFiles fs basePath (captionLangUnion manual auto)
    if subtitleFiles.isEmpty then
      { fs := fs, path := videoPath, msg := .infoNoSubs }
    else
      let tempOutput := (videoPath.withSuffix (".temp" ++ videoPath.ext)).full
      match remux with
      | .success =>
        let fs1 := fs.create tempOutput
        if fs1.contains tempOutput then
          let fs2 := ((fs1.delete videoPath.full).delete tempOutput).create videoPath.full
          let fs3 := subtitleFiles.foldl (fun acc sf => acc.delete sf.2) fs2
          { fs := fs3, path := videoPath, msg := .okEmbedded }
        else
          { fs := fs1, path := videoPath, msg := .okEmbedded }
      | .failure tempWritten =>
        let fs1 := if tempWritten then fs.create tempOutput else fs
        let fs2 := if fs1.contains tempOutput then fs1.delete tempOutput else fs1
        { fs := fs2, path := videoPath, msg := .warnRemuxFailed }

/-- The parts of the yt-dlp info dict that `download_video` consumes: the
caption language key sets (used by the embedder) and the value of
`ydl.prepare_filename(info)` (line 265). -/
structure VideoInfo where
  manualLangs : List String
  autoLangs : List String
  preparedFilename : FPath
deriving Repr

/-- Outcome of `ydl.extract_info` for one URL: a `DownloadError`
(caught at line 283), any other exception (caught at line 286), or an info
dict. -/
inductive ExtractOutcome where
  | downloadError
  | unexpectedError
  | ok (info : VideoInfo)
deriving Repr

/-- Behaviour of the external world for one URL in download mode: the
extraction outcome, the filesystem contents after the yt-dlp call returned,
and the outcome of a subsequent ffmpeg remux subprocess (only relevant when
the embedder runs and finds captions). -/
structure UrlWorld where
  extract : ExtractOutcome
  fsAfterDownload : FS
  remux : RemuxOutcome
deriving Repr

/-- Output path computed by `download_video` after the download
(src/main.py lines 265-270): the prepared filename, with the suffix forced
to the mp3 extension when in audio-only mode with ffmpeg available. -/
def computedOutputPath (args : Args) (ffmpegAvailable : Bool)
    (info : VideoInfo) : FPath :=
  if args.audio_only && ffmpegAvailable then
    info.preparedFilename.withSuffix ".mp3"
  else
    info.preparedFilename

/-- Embedding of `YouTubeDownloader.download_video` (src/main.py
lines 234-288).  Returns the path string printed and returned at line 278,
or `none` on any failure: extraction errors (both handlers return `None`),
simulate mode (line 262), and the defensive existence check of
lines 276-281.  The Python function returns `str(output_path)`, which is
never the empty string for a `pathlib.Path`, so Python truthiness of the
result coincides with `Option.isSome`. -/
def download_video (args : Args) (ffmpegAvailable : Bool) (w : UrlWorld) :
    Option String :=
  match w.extract with
  | .downloadError => none
  | .unexpectedError => none
  | .ok info =>
    if args.simulate then none
    else
      let outputPath := computedOutputPath args ffmpegAvailable info
      let afterEmbed :=
        if args.embed_subs && args.subtitles && ffmpegAvailable then
          let r := embedSubtitles w.fsAfterDownload outputPath
            info.manualLangs info.autoLangs w.remux
          (r.fs, r.path)
        else
          (w.fsAfterDownload, outputPath)
      if afterEmbed.1.contains afterEmbed.2.full then
        some afterEmbed.2.full
      else none

/-- Result of `YouTubeDownloader.run`: the process exit code, and the
success count and failed-URL list of the download summary (both stay at
their initial values `0` and `[]` on the simulate path, which returns
before the download loop). -/
structure RunOutcome where
  exitCode : Nat
  successCount : Nat
  failedUrls : List String
deriving DecidableEq, Repr

/-- Embedding of `YouTubeDownloader.run` (src/main.py lines 390-424).
`listOk u` tells whether `list_formats u` completes without a yt-dlp
`DownloadError`; on the first URL where it raises one, `list_formats`
calls `sys.exit(EXIT_NETWORK_ERROR)` (lines 230-232), so the simulate
branch yields exit code 2 as soon as any URL fails to list and 0 only when
every URL listed.  In download mode each URL is passed to
`download_video`; a truthy (= `some`) result increments the success count,
otherwise the URL is appended to the failed list (lines 408-413), and the
exit code is 0 exactly when every URL succeeded (line 424). -/
def run (args : Args) (ffmpegAvailable : Bool) (listOk : String → Bool)
    (w : String → UrlWorld) : RunOutcome :=
  if args.simulate then
    if args.urls.all (fun u => listOk u) then
      { exitCode := EXIT_SUCCESS, successCount := 0, failedUrls := [] }
    else
      { exitCode := EXIT_NETWORK_ERROR, successCount := 0, failedUrls := [] }
  else
    let results := args.urls.map (fun u => (u, download_video args ffmpegAvailable (w u)))
    let successCount := (results.filter (fun r => r.2.isSome)).length
    let failedUrls := (results.filter (fun r => r.2.isNone)).map (fun r => r.1)
    { exitCode :=
        if successCount = args.urls.length then EXIT_SUCCESS
        else EXIT_GENERAL_ERROR
      successCount := successCount
      failedUrls := failedUrls }

/-- Argument record matching the argparse defaults (src/main.py
lines 442-574): no flags given, one may override individual fields.  The
output directory stands in for `os.getcwd()`. -/
def baseArgs : Args :=
  { urls := [], output_dir := "cwd", format := none, audio_only := false,
    video_only := false, subtitles := false, sub_lang := "en",
    embed_subs := false, merge := false, overwrite := false, quiet := false,
    progress := true, max_filesize := none, simulate := false }

/-- A world in which extraction raises a yt-dlp `DownloadError`. -/
def wDefault : UrlWorld :=
  { extract := .downloadError, fsAfterDownload := [], remux := .success }

/-- Membership in the filesystem after `FS.delete`: exactly the other
existing paths. -/
theorem FS.contains_delete (fs : FS) (p q : String) :
    ((fs.delete p).contains q = true) ↔ (q ≠ p ∧ fs.contains q = true) := by
  simp only [FS.delete, List.elem_iff, List.mem_filter, bne_iff_ne]
  exact and_comm

/-- Membership in the filesystem after `FS.create`: the created path and
the previously existing paths. -/
theorem FS.contains_create (fs : FS) (p q : String) :
    ((fs.create p).contains q = true) ↔ (q = p ∨ fs.contains q = true) := by
  unfold FS.create
  split
  · rename_i hp
    constructor
    · exact Or.inr
    · rintro (rfl | h)
      · exact hp
      · exact h
  · simp [List.elem_iff]

/-- Claim C4: for every request, the format selector passed to the extraction
engine is the explicit user format string when one is given (a non-empty
string, matching Python truthiness of `self.args.format or default`),
otherwise the mode default: bestaudio/best for audio-only, bestvideo for
video-only, bestvideo+bestaudio/best otherwise; and when the merge flag is
set the merge container is fixed to mp4. -/
theorem C4_format_selector (args : Args) (ffmpegAvailable : Bool)
    (tempDir : Option String) :
    (∀ f, args.format = some f → f ≠ "" →
      (getYdlOpts args ffmpegAvailable tempDir).format = f) ∧
    (args.format = none →
      (args.audio_only = true →
        (getYdlOpts args ffmpegAvailable tempDir).format = "bestaudio/best") ∧
      (args.audio_only = false → args.video_only = true →
        (getYdlOpts args ffmpegAvailable tempDir).format = "bestvideo") ∧
      (args.audio_only = false → args.video_only = false →
        (getYdlOpts args ffmpegAvailable tempDir).format =
          "bestvideo+bestaudio/best")) ∧
    (args.merge = true →
      (getYdlOpts args ffmpegAvailable tempDir).merge_output_format =
        some "mp4") := by
  refine ⟨?_, ?_, ?_⟩
  · intro f hf hne
    cases hao : args.audio_only <;> cases hvo : args.video_only <;>
      simp [getYdlOpts, hf, hne, hao, hvo]
  · intro hnone
    refine ⟨?_, ?_, ?_⟩ <;> intros <;> simp [getYdlOpts, hnone, *]
  · intro hm
    simp [getYdlOpts, hm]

/-- Witness for C4 at concrete requests: an explicit format string is
passed through verbatim, and a merge request with no explicit format in
combined mode yields the combined default and the mp4 merge container. -/
theorem C4_format_selector_witness :
    (getYdlOpts { baseArgs with format := some "137+140" } true none).format =
        "137+140" ∧
    (getYdlOpts { baseArgs with merge := true } true none).format =
        "bestvideo+bestaudio/best" ∧
    (getYdlOpts { baseArgs with merge := true } true none).merge_output_format =
        some "mp4" :=
  ⟨(C4_format_selector { baseArgs with format := some "137+140" } true none).1
      "137+140" rfl (by decide),
   ((C4_format_selector { baseArgs with merge := true } true none).2.1
      rfl).2.2 rfl rfl,
   (C4_format_selector { baseArgs with merge := true } true none).2.2 rfl⟩

/-- Claim C9: for every request with a size cap set (a non-zero value, matching
Python truthiness of `if self.args.max_filesize:`), the cap passed to the
extraction engine is the megabyte value multiplied by 1024 and again by
1024. -/
theorem C9_size_cap (args : Args) (ffmpegAvailable : Bool)
    (tempDir : Option String) (m : ℚ) (hm : args.max_filesize = some m)
    (h0 : m ≠ 0) :
    (getYdlOpts args ffmpegAvailable tempDir).max_filesize =
      some (m * 1024 * 1024) := by
  simp [getYdlOpts, hm, h0]

/-- Witness for C9: a cap of 10 MB yields exactly 10485760 bytes. -/
theorem C9_size_cap_witness :
    (getYdlOpts { baseArgs with max_filesize := some 10 } true
        none).max_filesize = some 10485760 := by
  have h := C9_size_cap { baseArgs with max_filesize := some 10 } true none 10
    rfl (by norm_num)
  rw [h]
  norm_num

/-- Claim C5: for every audio-only download with ffmpeg available, the computed
output path has extension .mp3 whatever filename the extraction engine
prepared, and the attached post-processing step is FFmpegExtractAudio to
mp3; with ffmpeg unavailable, the postprocessors list is empty and the
computed output path is exactly the prepared filename (native
extension). -/
theorem C5_audio_extension (args : Args) (tempDir : Option String)
    (hao : args.audio_only = true) :
    (∀ info : VideoInfo,
        (computedOutputPath args true info).ext = ".mp3" ∧
        computedOutputPath args false info = info.preparedFilename) ∧
    (getYdlOpts args true tempDir).postprocessors =
      [{ key := "FFmpegExtractAudio", preferredcodec := "mp3",
         preferredquality := "192" }] ∧
    (getYdlOpts args false tempDir).postprocessors = [] := by
  refine ⟨fun info => ⟨?_, ?_⟩, ?_, ?_⟩ <;>
    simp [computedOutputPath, getYdlOpts, hao, FPath.withSuffix]

/-- Witness for C5 at a concrete audio-only request and a prepared
filename with a native .webm extension. -/
theorem C5_audio_extension_witness :
    (computedOutputPath { baseArgs with audio_only := true } true
        { manualLangs := [], autoLangs := [],
          preparedFilename := { stem := "video", ext := ".webm" } }).ext =
      ".mp3" ∧
    computedOutputPath { baseArgs with audio_only := true } false
        { manualLangs := [], autoLangs := [],
          preparedFilename := { stem := "video", ext := ".webm" } } =
      { stem := "video", ext := ".webm" } ∧
    (getYdlOpts { baseArgs with audio_only := true } false
        none).postprocessors = [] :=
  ⟨((C5_audio_extension { baseArgs with audio_only := true } none rfl).1
      { manualLangs := [], autoLangs := [],
        preparedFilename := { stem := "video", ext := ".webm" } }).1,
   ((C5_audio_extension { baseArgs with audio_only := true } none rfl).1
      { manualLangs := [], autoLangs := [],
        preparedFilename := { stem := "video", ext := ".webm" } }).2,
   (C5_audio_extension { baseArgs with audio_only := true } none rfl).2.2⟩

/-- Claim C6, divergence witness: with the merge flag set and ffmpeg unavailable
at startup, the options built by the code still request the mp4 merge
container, although the startup warning printed at src/main.py line 96
states that the merge feature will be disabled (the
`merge_output_format` entry at line 136 does not consult
`self.ffmpeg_available`).  The other two capability degradations do hold:
no audio post-processing step is attached, and the embedder invocation at
line 273 is guarded by `self.ffmpeg_available`. -/
theorem C6_merge_container_not_disabled :
    ({ baseArgs with merge := true, audio_only := true } : Args).merge =
        true ∧
    (getYdlOpts { baseArgs with merge := true, audio_only := true } false
        none).merge_output_format = some "mp4" ∧
    (getYdlOpts { baseArgs with merge := true, audio_only := true } false
        none).postprocessors = [] := by
  refine ⟨rfl, ?_, ?_⟩ <;> simp [getYdlOpts, baseArgs]

/-- Helper: every branch of `embedSubtitles` (missing video, no captions,
remux success with or without the temporary file, remux failure) returns
the input path. -/
theorem embedSubtitles_path (fs : FS) (videoPath : FPath)
    (manual auto : List String) (remux : RemuxOutcome) :
    (embedSubtitles fs videoPath manual auto remux).path = videoPath := by
  unfold embedSubtitles
  split
  · rfl
  · dsimp only
    split
    · rfl
    · cases remux with
      | success =>
        dsimp only
        split <;> rfl
      | failure t => rfl

/-- Claim C10: the embedder returns exactly the path it was given in every
branch, so the final path recorded by the orchestrator for a successful
download is always the pre-embedding computed output path. -/
theorem C10_embed_path_identity :
    (∀ (fs : FS) (videoPath : FPath) (manual auto : List String)
        (remux : RemuxOutcome),
      (embedSubtitles fs videoPath manual auto remux).path = videoPath) ∧
    (∀ (args : Args) (ffmpegAvailable : Bool) (fsAfter : FS)
        (remux : RemuxOutcome) (info : VideoInfo),
      download_video { args with simulate := false } ffmpegAvailable
          { extract := .ok info, fsAfterDownload := fsAfter,
            remux := remux } = none ∨
      download_video { args with simulate := false } ffmpegAvailable
          { extract := .ok info, fsAfterDownload := fsAfter,
            remux := remux } =
        some (computedOutputPath { args with simulate := false }
            ffmpegAvailable info).full) := by
  refine ⟨embedSubtitles_path, ?_⟩
  intro args ffmpegAvailable fsAfter remux info
  simp only [download_video, embedSubtitles_path, Bool.false_eq_true,
    if_false, apply_ite Prod.snd, ite_self]
  split <;> split
  · exact Or.inr rfl
  · exact Or.inl rfl
  · exact Or.inr rfl
  · exact Or.inl rfl

/-- Claim C7: when the video file exists but caption discovery finds no sidecar
files, the embedder returns the identical input path, the filesystem is
unchanged, and only the informational no-subtitles message is emitted. -/
theorem C7_no_captions_noop (fs : FS) (videoPath : FPath)
    (manual auto : List String) (remux : RemuxOutcome)
    (hvid : fs.contains videoPath.full = true)
    (hnone : findSubtitleFiles fs videoPath.stem
        (captionLangUnion manual auto) = []) :
    embedSubtitles fs videoPath manual auto remux =
      { fs := fs, path := videoPath, msg := .infoNoSubs } := by
  have hmem : videoPath.full ∈ fs := List.elem_iff.mp hvid
  unfold embedSubtitles
  simp [hnone, hmem]

/-- Witness for C7: a lone video file whose caption language has no
matching sidecar file on disk. -/
theorem C7_no_captions_noop_witness :
    embedSubtitles ["v.mp4"] { stem := "v", ext := ".mp4" } ["en"] []
        .success =
      { fs := ["v.mp4"], path := { stem := "v", ext := ".mp4" },
        msg := .infoNoSubs } :=
  C7_no_captions_noop ["v.mp4"] { stem := "v", ext := ".mp4" } ["en"] []
    .success (by decide) (by decide)

/-- Helper: a path never coincides with its temporary remux output, whose
name inserts ".temp" before the extension. -/
theorem full_ne_tempOutput (p : FPath) :
    p.full ≠ (p.withSuffix (".temp" ++ p.ext)).full := by
  intro h
  have hl := congrArg String.length h
  have h5 : (".temp" : String).length = 5 := rfl
  simp only [FPath.full, FPath.withSuffix, String.length_append, h5] at hl
  omega

/-- Helper: Boolean characterisation of membership after `FS.create`. -/
theorem FS.contains_create_eq (fs : FS) (t q : String) :
    (fs.create t).contains q = if q = t then true else fs.contains q := by
  by_cases hq : q = t
  · subst hq
    simp only [if_pos rfl]
    exact (FS.contains_create fs q q).mpr (Or.inl rfl)
  · rw [if_neg hq]
    refine Bool.coe_iff_coe.mp ?_
    rw [FS.contains_create]
    exact ⟨fun h => h.resolve_left hq, Or.inr⟩

/-- Helper: Boolean characterisation of membership after `FS.delete`. -/
theorem FS.contains_delete_eq (fs : FS) (t q : String) :
    (fs.delete t).contains q = if q = t then false else fs.contains q := by
  by_cases hq : q = t
  · subst hq
    rw [if_pos rfl]
    refine Bool.eq_false_iff.mpr fun h => ?_
    exact ((FS.contains_delete fs q q).mp h).1 rfl
  · rw [if_neg hq]
    refine Bool.coe_iff_coe.mp ?_
    rw [FS.contains_delete]
    exact ⟨fun h => h.2, fun h => ⟨hq, h⟩⟩

/-- Helper: explicit form of the remux-failure branch of the embedder when
the video exists and captions were discovered. -/
theorem embedSubtitles_failure_eq (fs : FS) (videoPath : FPath)
    (manual auto : List String) (tempWritten : Bool)
    (hvid : fs.contains videoPath.full = true)
    (hsubs : findSubtitleFiles fs videoPath.stem
        (captionLangUnion manual auto) ≠ []) :
    embedSubtitles fs videoPath manual auto (.failure tempWritten) =
      { fs :=
          if tempWritten then
            (fs.create
                (videoPath.withSuffix (".temp" ++ videoPath.ext)).full).delete
              (videoPath.withSuffix (".temp" ++ videoPath.ext)).full
          else if fs.contains
              (videoPath.withSuffix (".temp" ++ videoPath.ext)).full then
            fs.delete (videoPath.withSuffix (".temp" ++ videoPath.ext)).full
          else fs,
        path := videoPath, msg := .warnRemuxFailed } := by
  have hempty := List.isEmpty_eq_false.mpr hsubs
  have hT : (fs.create
      (videoPath.withSuffix (".temp" ++ videoPath.ext)).full).contains
      (videoPath.withSuffix (".temp" ++ videoPath.ext)).full = true := by
    rw [FS.contains_create_eq, if_pos rfl]
  unfold embedSubtitles
  cases tempWritten with
  | true => simp [hvid, hempty, List.elem_iff.mp hvid, hT, List.elem_iff.mp hT]
  | false => simp [hvid, hempty, List.elem_iff.mp hvid]

/-- Helper: membership after the remux-failure branch, as a single
equation: exactly the temporary output path is gone, everything else is as
before. -/
theorem embedSubtitles_failure_contains (fs : FS) (videoPath : FPath)
    (manual auto : List String) (tempWritten : Bool)
    (hvid : fs.contains videoPath.full = true)
    (hsubs : findSubtitleFiles fs videoPath.stem
        (captionLangUnion manual auto) ≠ []) (q : String) :
    (embedSubtitles fs videoPath manual auto
        (.failure tempWritten)).fs.contains q =
      if q = (videoPath.withSuffix (".temp" ++ videoPath.ext)).full then false
      else fs.contains q := by
  rw [embedSubtitles_failure_eq fs videoPath manual auto tempWritten hvid hsubs]
  dsimp only
  cases tempWritten with
  | true =>
    rw [if_pos rfl, FS.contains_delete_eq]
    by_cases hq : q = (videoPath.withSuffix (".temp" ++ videoPath.ext)).full
    · rw [if_pos hq, if_pos hq]
    · rw [if_neg hq, if_neg hq, FS.contains_create_eq, if_neg hq]
  | false =>
    rw [if_neg Bool.false_ne_true]
    by_cases hc : fs.contains
        (videoPath.withSuffix (".temp" ++ videoPath.ext)).full = true
    · rw [if_pos hc, FS.contains_delete_eq]
    · rw [if_neg hc]
      by_cases hq : q = (videoPath.withSuffix (".temp" ++ videoPath.ext)).full
      · rw [if_pos hq, hq]
        exact Bool.eq_false_iff.mpr hc
      · rw [if_neg hq]

/-- Helper: every caption file discovered by the embedder exists on the
filesystem. -/
theorem mem_findSubtitleFiles_contains (fs : FS) (base : String)
    (langs : List String) (sf : String × String)
    (hsf : sf ∈ findSubtitleFiles fs base langs) :
    fs.contains sf.2 = true := by
  unfold findSubtitleFiles at hsf
  rcases List.mem_filterMap.mp hsf with ⟨lang, _, heq⟩
  rcases Option.map_eq_some'.mp heq with ⟨ext, hfind, hpair⟩
  have hp := List.find?_some hfind
  cases hpair
  exact hp

/-- Claim C3: when the remux subprocess fails after the embedder found caption
files, the embedder returns the original input path, emits the warning
message, the original video file still exists, no temporary output file
remains, every path other than the temporary output is exactly as before,
and every discovered caption file (not named like the temporary output)
still exists; the exception is caught inside the embedder, which returns
normally in this branch. -/
theorem C3_remux_failure_recovery (fs : FS) (videoPath : FPath)
    (manual auto : List String) (tempWritten : Bool)
    (hvid : fs.contains videoPath.full = true)
    (hsubs : findSubtitleFiles fs videoPath.stem
        (captionLangUnion manual auto) ≠ []) :
    (embedSubtitles fs videoPath manual auto (.failure tempWritten)).path =
        videoPath ∧
    (embedSubtitles fs videoPath manual auto (.failure tempWritten)).msg =
        .warnRemuxFailed ∧
    (embedSubtitles fs videoPath manual auto
        (.failure tempWritten)).fs.contains videoPath.full = true ∧
    (embedSubtitles fs videoPath manual auto
        (.failure tempWritten)).fs.contains
        (videoPath.withSuffix (".temp" ++ videoPath.ext)).full = false ∧
    (∀ q : String,
      q ≠ (videoPath.withSuffix (".temp" ++ videoPath.ext)).full →
      (embedSubtitles fs videoPath manual auto
          (.failure tempWritten)).fs.contains q = fs.contains q) ∧
    (∀ sf ∈ findSubtitleFiles fs videoPath.stem (captionLangUnion manual auto),
      sf.2 ≠ (videoPath.withSuffix (".temp" ++ videoPath.ext)).full →
      (embedSubtitles fs videoPath manual auto
          (.failure tempWritten)).fs.contains sf.2 = true) := by
  have hchar := embedSubtitles_failure_contains fs videoPath manual auto
    tempWritten hvid hsubs
  refine ⟨embedSubtitles_path _ _ _ _ _, ?_, ?_, ?_, ?_, ?_⟩
  · rw [embedSubtitles_failure_eq fs videoPath manual auto tempWritten hvid
      hsubs]
  · rw [hchar, if_neg (full_ne_tempOutput videoPath)]
    exact hvid
  · rw [hchar, if_pos rfl]
  · intro q hq
    rw [hchar, if_neg hq]
  · intro sf hsf hne
    rw [hchar, if_neg hne]
    exact mem_findSubtitleFiles_contains fs videoPath.stem _ sf hsf

/-- Witness for C3: a video with one discovered caption file, remux failure
leaving a half-written temporary output; the video and the caption file
survive, the temporary output is gone, and the original path is
returned. -/
theorem C3_remux_failure_recovery_witness :
    (embedSubtitles ["v.mp4", "v.en.srt"] { stem := "v", ext := ".mp4" }
        ["en"] [] (.failure true)).path = { stem := "v", ext := ".mp4" } ∧
    (embedSubtitles ["v.mp4", "v.en.srt"] { stem := "v", ext := ".mp4" }
        ["en"] [] (.failure true)).fs.contains "v.mp4" = true ∧
    (embedSubtitles ["v.mp4", "v.en.srt"] { stem := "v", ext := ".mp4" }
        ["en"] [] (.failure true)).fs.contains "v.temp.mp4" = false ∧
    (embedSubtitles ["v.mp4", "v.en.srt"] { stem := "v", ext := ".mp4" }
        ["en"] [] (.failure true)).fs.contains "v.en.srt" = true := by
  have h := C3_remux_failure_recovery ["v.mp4", "v.en.srt"]
    { stem := "v", ext := ".mp4" } ["en"] [] true (by decide) (by decide)
  exact ⟨h.1, h.2.2.1, h.2.2.2.1,
    h.2.2.2.2.2 ("en", "v.en.srt") (by decide) (by decide)⟩

/-- Helper: the first supported extension whose sidecar file exists,
characterised extension by extension in the fixed priority order. -/
theorem find_supported_ext (fs : FS) (base lang ext : String) :
    SUPPORTED_SUBTITLE_FORMATS.find?
        (fun e => fs.contains (subFileName base lang e)) = some ext ↔
      ((ext = ".vtt" ∧ fs.contains (subFileName base lang ".vtt") = true) ∨
       (ext = ".srt" ∧ fs.contains (subFileName base lang ".vtt") = false ∧
          fs.contains (subFileName base lang ".srt") = true) ∨
       (ext = ".ass" ∧ fs.contains (subFileName base lang ".vtt") = false ∧
          fs.contains (subFileName base lang ".srt") = false ∧
          fs.contains (subFileName base lang ".ass") = true)) := by
  unfold SUPPORTED_SUBTITLE_FORMATS
  cases hv : fs.contains (subFileName base lang ".vtt") <;>
    cases hs : fs.contains (subFileName base lang ".srt") <;>
      cases ha : fs.contains (subFileName base lang ".ass") <;>
        simp_all [List.find?, eq_comm]

/-- Helper: membership in the discovered caption list unfolded to the
underlying first-extension search. -/
theorem mem_findSubtitleFiles_iff (fs : FS) (base : String)
    (langs : List String) (lang file : String) :
    (lang, file) ∈ findSubtitleFiles fs base langs ↔
      lang ∈ langs ∧ ∃ ext,
        SUPPORTED_SUBTITLE_FORMATS.find?
          (fun e => fs.contains (subFileName base lang e)) = some ext ∧
        file = subFileName base lang ext := by
  unfold findSubtitleFiles
  rw [List.mem_filterMap]
  constructor
  · rintro ⟨l, hl, heq⟩
    rcases Option.map_eq_some'.mp heq with ⟨ext, hfind, hpair⟩
    cases hpair
    exact ⟨hl, ext, hfind, rfl⟩
  · rintro ⟨hl, ext, hfind, rfl⟩
    refine ⟨lang, hl, ?_⟩
    rw [hfind]
    rfl

/-- Helper: the languages of the discovered caption list form a sublist of
the probed language list (hence at most one caption file per language). -/
theorem map_fst_filterMap_sublist {α β : Type} (g : String → Option α)
    (h : String → α → β) :
    ∀ langs : List String,
      ((langs.filterMap fun l => (g l).map fun x => (l, h l x)).map
        Prod.fst).Sublist langs
  | [] => by simp
  | l :: t => by
    cases hg : g l with
    | none =>
      simp only [List.filterMap_cons, hg, Option.map_none']
      exact (map_fst_filterMap_sublist g h t).cons l
    | some x =>
      simp only [List.filterMap_cons, hg, Option.map_some', List.map_cons]
      exact (map_fst_filterMap_sublist g h t).cons₂ l

/-- Claim C8: caption discovery probes, for every language of the union of the
manual and auto caption language sets, the sidecar names
base.lang.vtt, base.lang.srt, base.lang.ass in this fixed priority order,
keeps the first that exists (so a pair is discovered exactly when its file
is the first existing one), discovers at most one file per language, and
silently skips languages with no match. -/
theorem C8_caption_discovery (fs : FS) (base : String)
    (manual auto : List String) :
    (∀ lang file,
        (lang, file) ∈
            findSubtitleFiles fs base (captionLangUnion manual auto) ↔
          (lang ∈ manual ∨ lang ∈ auto) ∧
          ((file = subFileName base lang ".vtt" ∧
              fs.contains (subFileName base lang ".vtt") = true) ∨
           (file = subFileName base lang ".srt" ∧
              fs.contains (subFileName base lang ".vtt") = false ∧
              fs.contains (subFileName base lang ".srt") = true) ∨
           (file = subFileName base lang ".ass" ∧
              fs.contains (subFileName base lang ".vtt") = false ∧
              fs.contains (subFileName base lang ".srt") = false ∧
              fs.contains (subFileName base lang ".ass") = true))) ∧
    ((findSubtitleFiles fs base (captionLangUnion manual auto)).map
        Prod.fst).Nodup := by
  constructor
  · intro lang file
    rw [mem_findSubtitleFiles_iff]
    have hmem : lang ∈ captionLangUnion manual auto ↔
        lang ∈ manual ∨ lang ∈ auto := by
      unfold captionLangUnion
      rw [List.mem_dedup, List.mem_append]
    rw [hmem]
    constructor
    · rintro ⟨hm, ext, hfind, rfl⟩
      refine ⟨hm, ?_⟩
      rcases (find_supported_ext fs base lang ext).mp hfind with
        ⟨rfl, h⟩ | ⟨rfl, h1, h2⟩ | ⟨rfl, h1, h2, h3⟩
      · exact Or.inl ⟨rfl, h⟩
      · exact Or.inr (Or.inl ⟨rfl, h1, h2⟩)
      · exact Or.inr (Or.inr ⟨rfl, h1, h2, h3⟩)
    · rintro ⟨hm, ⟨rfl, h⟩ | ⟨rfl, h1, h2⟩ | ⟨rfl, h1, h2, h3⟩⟩
      · exact ⟨hm, ".vtt",
          (find_supported_ext fs base lang ".vtt").mpr (Or.inl ⟨rfl, h⟩), rfl⟩
      · exact ⟨hm, ".srt",
          (find_supported_ext fs base lang ".srt").mpr
            (Or.inr (Or.inl ⟨rfl, h1, h2⟩)), rfl⟩
      · exact ⟨hm, ".ass",
          (find_supported_ext fs base lang ".ass").mpr
            (Or.inr (Or.inr ⟨rfl, h1, h2, h3⟩)), rfl⟩
  · have hs := map_fst_filterMap_sublist
      (fun l => SUPPORTED_SUBTITLE_FORMATS.find?
        (fun e => fs.contains (subFileName base l e)))
      (fun l e => subFileName base l e)
      (captionLangUnion manual auto)
    have hnd : (captionLangUnion manual auto).Nodup := by
      unfold captionLangUnion
      exact List.nodup_dedup _
    exact List.Nodup.sublist hs hnd

/-- Helper: the summary counts partition the URL list. -/
theorem length_success_add_failed {β : Type} (f : String → Option β) :
    ∀ l : List String,
      ((l.map fun u => (u, f u)).filter fun r => r.2.isSome).length +
        ((l.map fun u => (u, f u)).filter fun r => r.2.isNone).length =
      l.length
  | [] => rfl
  | u :: t => by
    have ih := length_success_add_failed f t
    cases hf : f u <;> simp [hf, List.filter_cons] <;> omega

/-- Helper: the failed URLs are the input URLs with the successful ones
filtered out, in the original order. -/
theorem failed_urls_eq_filter {β : Type} (f : String → Option β) :
    ∀ l : List String,
      (((l.map fun u => (u, f u)).filter fun r => r.2.isNone).map
          fun r => r.1) =
        l.filter fun u => (f u).isNone
  | [] => rfl
  | u :: t => by
    have ih := failed_urls_eq_filter f t
    cases hf : f u <;> simp [hf, List.filter_cons, ih]

/-- Claim C1: in download (non-simulate) mode the batch loop accounts for every
URL: the success count and the failed list partition the batch, the failed
list is the input list filtered (in original order) to the URLs on which
`download_video` returned `None`, the exit status is 0 exactly when no URL
failed, and an unexpected exception while processing one URL is caught
inside `download_video` and recorded as that URL failing (the loop shape
itself guarantees processing continues with the next URL). -/
theorem C1_batch_accounting (args : Args) (ffmpegAvailable : Bool)
    (listOk : String → Bool) (w : String → UrlWorld)
    (hsim : args.simulate = false) :
    (run args ffmpegAvailable listOk w).successCount +
        (run args ffmpegAvailable listOk w).failedUrls.length =
      args.urls.length ∧
    (run args ffmpegAvailable listOk w).failedUrls =
      args.urls.filter
        (fun u => (download_video args ffmpegAvailable (w u)).isNone) ∧
    ((run args ffmpegAvailable listOk w).exitCode = EXIT_SUCCESS ↔
      (run args ffmpegAvailable listOk w).failedUrls = []) ∧
    (∀ u, (w u).extract = ExtractOutcome.unexpectedError →
      download_video args ffmpegAvailable (w u) = none) := by
  unfold run
  rw [if_neg (by simp [hsim] : ¬ args.simulate = true)]
  dsimp only
  have hpart := length_success_add_failed
    (fun u => download_video args ffmpegAvailable (w u)) args.urls
  have hfail := failed_urls_eq_filter
    (fun u => download_video args ffmpegAvailable (w u)) args.urls
  refine ⟨?_, hfail, ?_, ?_⟩
  · rw [List.length_map]
    exact hpart
  · constructor
    · intro h0
      by_cases hc :
          ((args.urls.map fun u =>
              (u, download_video args ffmpegAvailable (w u))).filter
            fun r => r.2.isSome).length = args.urls.length
      · have hlen :
            ((args.urls.map fun u =>
                (u, download_video args ffmpegAvailable (w u))).filter
              fun r => r.2.isNone).length = 0 := by omega
        have := List.eq_nil_of_length_eq_zero hlen
        rw [this]
        rfl
      · rw [if_neg hc] at h0
        exact absurd h0 (by decide)
    · intro hnil
      have hlen :
          (((args.urls.map fun u =>
              (u, download_video args ffmpegAvailable (w u))).filter
            fun r => r.2.isNone).map fun r => r.1).length = 0 := by
        rw [hnil]
        rfl
      rw [List.length_map] at hlen
      have hc :
          ((args.urls.map fun u =>
              (u, download_video args ffmpegAvailable (w u))).filter
            fun r => r.2.isSome).length = args.urls.length := by omega
      rw [if_pos hc]
  · intro u hu
    simp [download_video, hu]

/-- Concrete info dict for the C1 witness. -/
def infoA : VideoInfo :=
  { manualLangs := [], autoLangs := [],
    preparedFilename := { stem := "t", ext := ".mp4" } }

/-- Concrete per-URL worlds for the C1 witness: URL a succeeds (its output
file exists afterwards), URL b hits an extraction `DownloadError`, URL c
hits an unexpected exception. -/
def wC1 : String → UrlWorld := fun u =>
  if u = "a" then
    { extract := .ok infoA, fsAfterDownload := ["t.mp4"], remux := .success }
  else if u = "b" then
    { extract := .downloadError, fsAfterDownload := [], remux := .success }
  else
    { extract := .unexpectedError, fsAfterDownload := [], remux := .success }

/-- Witness for C1: a batch of three URLs with exactly two failures yields
success count 1, the two failed URLs in input order, and a non-zero exit
status. -/
theorem C1_batch_accounting_witness :
    (run { baseArgs with urls := ["a", "b", "c"] } true (fun _ => true)
        wC1).failedUrls = ["b", "c"] ∧
    (run { baseArgs with urls := ["a", "b", "c"] } true (fun _ => true)
        wC1).successCount = 1 ∧
    (run { baseArgs with urls := ["a", "b", "c"] } true (fun _ => true)
        wC1).exitCode ≠ EXIT_SUCCESS := by
  have h := C1_batch_accounting { baseArgs with urls := ["a", "b", "c"] }
    true (fun _ => true) wC1 rfl
  have hfl : (run { baseArgs with urls := ["a", "b", "c"] } true
      (fun _ => true) wC1).failedUrls = ["b", "c"] := by
    rw [h.2.1]
    decide
  have hlen := h.1
  rw [hfl] at hlen
  have hlen2 : (run { baseArgs with urls := ["a", "b", "c"] } true
      (fun _ => true) wC1).successCount + 2 = 3 := by simpa using hlen
  refine ⟨hfl, by omega, fun h0 => ?_⟩
  have := h.2.2.1.mp h0
  rw [hfl] at this
  cases this

/-- Claim C2, counterexample to the claim as stated: in simulate mode with two
URLs whose metadata queries fail, the process exits with the network-error
status 2, not 0 — `list_formats` calls `sys.exit(EXIT_NETWORK_ERROR)` at
the first failing URL. -/
theorem C2_simulate_counterexample :
    ({ baseArgs with urls := ["a", "b"], simulate := true } : Args).simulate
        = true ∧
    (run { baseArgs with urls := ["a", "b"], simulate := true } true
        (fun _ => false) (fun _ => wDefault)).exitCode =
      EXIT_NETWORK_ERROR ∧
    EXIT_NETWORK_ERROR ≠ EXIT_SUCCESS := by
  refine ⟨rfl, rfl, by decide⟩

/-- Claim C2 (amended): in simulate mode the run is independent of the download
engine (no URL is ever downloaded, so no output file is created) and never
reaches the download summary (success count 0, no failed list); it exits
with status 0 exactly when every URL lists successfully, and a metadata
failure for any URL instead aborts the process with the network-error
status 2. -/
theorem C2_simulate_amended (args : Args) (ffmpegAvailable : Bool)
    (listOk : String → Bool) (w w₂ : String → UrlWorld)
    (hsim : args.simulate = true) :
    run args ffmpegAvailable listOk w = run args ffmpegAvailable listOk w₂ ∧
    ((run args ffmpegAvailable listOk w).exitCode = EXIT_SUCCESS ↔
      args.urls.all (fun u => listOk u) = true) ∧
    (args.urls.all (fun u => listOk u) = false →
      (run args ffmpegAvailable listOk w).exitCode = EXIT_NETWORK_ERROR) ∧
    (run args ffmpegAvailable listOk w).successCount = 0 ∧
    (run args ffmpegAvailable listOk w).failedUrls = [] := by
  refine ⟨by simp [run, hsim], ?_, ?_, ?_, ?_⟩
  · by_cases hall : args.urls.all (fun u => listOk u) = true
    · simp [run, hsim, hall, EXIT_SUCCESS]
    · simp [run, hsim, hall, EXIT_SUCCESS, EXIT_NETWORK_ERROR]
  · intro hall0
    simp [run, hsim, hall0]
  · simp [run, hsim, apply_ite RunOutcome.successCount]
  · simp [run, hsim, apply_ite RunOutcome.failedUrls]

/-- Witness for C2 (amended): one URL that lists successfully under
simulate mode gives exit status 0. -/
theorem C2_simulate_amended_witness :
    (run { baseArgs with urls := ["a"], simulate := true } true
        (fun _ => true) (fun _ => wDefault)).exitCode = EXIT_SUCCESS :=
  (C2_simulate_amended { baseArgs with urls := ["a"], simulate := true }
      true (fun _ => true) (fun _ => wDefault) (fun _ => wDefault)
      rfl).2.1.mpr (by decide)

end YTDL
